import Mathlib

/-!
Verification of the selection-bias pipeline (`src/step4_create_block_letter.py`,
`src/step5_create_masked.py`, `src/create_meme.py`).

2D numpy float arrays are embedded as `List (List ℚ)` (row-major); float values
are modelled as exact rationals, so every comparison in the code (`<` against the
threshold, equality against 1.0 or 0.3) is exact, matching the way the code only
ever compares values it wrote itself.  Python exceptions are embedded as
`Except` with a constructor per raise site, carrying the data interpolated into
the exception message.
-/

namespace SelectionBias

/-- A 2D numpy array of floats, row-major. -/
abbrev Field := List (List ℚ)

/-- `a.shape` of a 2D numpy array: (number of rows, number of columns).
The column count is read off the first row, which is the numpy shape whenever
the array is rectangular. -/
def shape (a : Field) : ℕ × ℕ := (a.length, (a.headD []).length)

/-- Rectangularity: every row has the length of the first row.  A genuine 2D
numpy array always satisfies this. -/
def IsRect (a : Field) : Prop := ∀ row ∈ a, row.length = (a.headD []).length

instance (a : Field) : Decidable (IsRect a) := by
  unfold IsRect; infer_instance

/-- The one exception `create_masked_stipple` raises:
`ValueError(f"stipple_img shape {...} does not match mask_img shape {...}")`,
carrying both shapes. -/
inductive MaskErr where
  | ShapeMismatch (stippleShape maskShape : ℕ × ℕ)
deriving DecidableEq, Repr

instance {ε α : Type} [DecidableEq ε] [DecidableEq α] : DecidableEq (Except ε α) := fun a b =>
  match a, b with
  | .error e, .error f =>
    if h : e = f then .isTrue (congrArg _ h) else .isFalse (fun hh => h (Except.error.inj hh))
  | .error _, .ok _ => .isFalse Except.noConfusion
  | .ok _, .error _ => .isFalse Except.noConfusion
  | .ok x, .ok y =>
    if h : x = y then .isTrue (congrArg _ h) else .isFalse (fun hh => h (Except.ok.inj hh))

/-- numpy `a.copy()`: a fresh array holding the same values. -/
def np_copy (a : Field) : Field := a

/-- numpy `mask_img < threshold`: elementwise boolean array. -/
def np_lt (a : Field) (t : ℚ) : List (List Bool) :=
  a.map (fun row => row.map (fun v => decide (v < t)))

/-- numpy boolean-mask assignment `a[region] = v`: wherever `region` is true the
entry becomes `v`, elsewhere it is unchanged. -/
def np_setWhere (a : Field) (region : List (List Bool)) (v : ℚ) : Field :=
  List.zipWith (fun row brow => List.zipWith (fun x b => if b then v else x) row brow) a region

/-- `create_masked_stipple` from `src/step5_create_masked.py`, with the final
value of the (unmutated) `stipple_img` argument threaded through explicitly:
on success it returns `(stipple_img after the call, masked_stipple)`.  The body
follows the source line by line: shape guard raising `ValueError`, `.copy()`,
boolean region `mask_img < threshold`, in-place assignment to 1.0 on the copy.
(The trailing `print` statistics touch no array and are omitted.) -/
def create_masked_stipple_exec (stipple_img mask_img : Field) (threshold : ℚ) :
    Except MaskErr (Field × Field) :=
  if shape stipple_img ≠ shape mask_img then
    .error (.ShapeMismatch (shape stipple_img) (shape mask_img))
  else
    let masked_stipple := np_copy stipple_img
    let mask_region := np_lt mask_img threshold
    let masked_stipple := np_setWhere masked_stipple mask_region 1
    .ok (stipple_img, masked_stipple)

/-- `create_masked_stipple` as a function of its inputs to its return value. -/
def create_masked_stipple (stipple_img mask_img : Field) (threshold : ℚ) :
    Except MaskErr Field :=
  (create_masked_stipple_exec stipple_img mask_img threshold).map (·.2)

/-- The elementwise denotation of the masking step: keep the sample entry where
the mask is ≥ threshold, write 1.0 where the mask is < threshold. -/
def applyMask (s m : Field) (t : ℚ) : Field :=
  List.zipWith (fun srow mrow =>
    List.zipWith (fun x v => if v < t then 1 else x) srow mrow) s m

theorem np_setWhere_copy_lt (s m : Field) (t : ℚ) :
    np_setWhere (np_copy s) (np_lt m t) 1 = applyMask s m t := by
  unfold np_setWhere np_copy np_lt applyMask
  induction s generalizing m with
  | nil => simp
  | cons srow s ih =>
    cases m with
    | nil => simp
    | cons mrow m =>
      simp only [List.map_cons, List.zipWith_cons_cons, ih]
      congr 1
      induction srow generalizing mrow with
      | nil => simp
      | cons x xs ihx =>
        cases mrow with
        | nil => simp
        | cons v vs => simp [ihx, apply_ite]

theorem create_masked_stipple_eq (s m : Field) (t : ℚ) :
    create_masked_stipple s m t =
      if shape s ≠ shape m then .error (.ShapeMismatch (shape s) (shape m))
      else .ok (applyMask s m t) := by
  unfold create_masked_stipple create_masked_stipple_exec
  by_cases h : shape s = shape m <;> simp [h, Except.map, np_setWhere_copy_lt]

theorem getD_zipWith {α β γ : Type} (f : α → β → γ) (dA : α) (dB : β) (dC : γ) :
    ∀ (a : List α) (b : List β) (i : ℕ), i < a.length → i < b.length →
      (List.zipWith f a b).getD i dC = f (a.getD i dA) (b.getD i dB) := by
  intro a
  induction a with
  | nil => intro b i h _; simp at h
  | cons x xs ih =>
    intro b i ha hb
    cases b with
    | nil => simp at hb
    | cons y ys =>
      cases i with
      | zero => simp
      | succ n =>
        simp only [List.zipWith_cons_cons, List.getD_cons_succ]
        exact ih ys n (Nat.lt_of_succ_lt_succ ha) (Nat.lt_of_succ_lt_succ hb)

theorem shape_applyMask (s m : Field) (t : ℚ) (h : shape s = shape m) :
    shape (applyMask s m t) = shape s := by
  cases s with
  | nil => simp [applyMask, shape]
  | cons srow srest =>
    cases m with
    | nil =>
      exfalso
      have h1 := congrArg Prod.fst h
      simp [shape] at h1
    | cons mrow mrest =>
      have h1 := congrArg Prod.fst h
      have h2 := congrArg Prod.snd h
      simp only [shape, List.headD_cons, List.length_cons] at h1 h2
      unfold applyMask
      simp only [shape, List.zipWith_cons_cons, List.headD_cons, List.length_cons,
        List.length_zipWith, Prod.mk.injEq]
      omega

theorem length_row_of_rect (a : Field) (i : ℕ) (hi : i < a.length) (ha : IsRect a) :
    (a.getD i []).length = (shape a).2 := by
  have hmem : a.getD i [] ∈ a := by
    rw [List.getD_eq_getElem a [] hi]
    exact List.getElem_mem hi
  exact ha _ hmem

theorem applyMask_entry (s m : Field) (t : ℚ) (i j : ℕ)
    (hs : IsRect s) (hm : IsRect m) (hsh : shape s = shape m)
    (hi : i < (shape s).1) (hj : j < (shape s).2) :
    ((applyMask s m t).getD i []).getD j 0 =
      if (m.getD i []).getD j 0 < t then 1 else (s.getD i []).getD j 0 := by
  have hi_s : i < s.length := hi
  have hi_m : i < m.length := by
    have := congrArg Prod.fst hsh; simp [shape] at this; omega
  unfold applyMask
  rw [getD_zipWith _ [] [] [] s m i hi_s hi_m]
  have hrow_s : (s.getD i []).length = (shape s).2 := length_row_of_rect s i hi_s hs
  have hrow_m : (m.getD i []).length = (shape m).2 := length_row_of_rect m i hi_m hm
  have hj_s : j < (s.getD i []).length := by rw [hrow_s]; exact hj
  have hj_m : j < (m.getD i []).length := by rw [hrow_m, ← hsh]; exact hj
  exact getD_zipWith _ 0 0 0 _ _ j hj_s hj_m

/-- C1: for shape-matched rectangular inputs, `create_masked_stipple` succeeds
with an output of the same shape whose every entry is 1.0 where the mask is
strictly below the threshold and the sample entry otherwise; in particular an
entry where the mask equals the threshold keeps the sample value, since
`¬(t < t)`. -/
theorem masked_stipple_elementwise (s m : Field) (t : ℚ)
    (hs : IsRect s) (hm : IsRect m) (hsh : shape s = shape m) :
    ∃ r, create_masked_stipple s m t = .ok r ∧ shape r = shape s ∧
      ∀ i j, i < (shape s).1 → j < (shape s).2 →
        (r.getD i []).getD j 0 =
          if (m.getD i []).getD j 0 < t then 1 else (s.getD i []).getD j 0 := by
  refine ⟨applyMask s m t, ?_, shape_applyMask s m t hsh, ?_⟩
  · rw [create_masked_stipple_eq]; simp [hsh]
  · intro i j hi hj
    exact applyMask_entry s m t i j hs hm hsh hi hj

/-- C1 witness: a concrete 2×2 instance, including a tie cell where the mask
equals the threshold and the sample value is kept. -/
theorem masked_stipple_elementwise_witness :
    IsRect [[(3:ℚ)/10, 0], [1, 3/10]] ∧ IsRect [[(0:ℚ), 1], [1/2, 2/5]] ∧
      shape [[(3:ℚ)/10, 0], [1, 3/10]] = shape [[(0:ℚ), 1], [1/2, 2/5]] ∧
      (∃ r, create_masked_stipple [[(3:ℚ)/10, 0], [1, 3/10]] [[(0:ℚ), 1], [1/2, 2/5]] (1/2) = .ok r ∧
        shape r = shape [[(3:ℚ)/10, 0], [1, 3/10]] ∧
        ∀ i j, i < (shape [[(3:ℚ)/10, 0], [1, 3/10]]).1 → j < (shape [[(3:ℚ)/10, 0], [1, 3/10]]).2 →
          (r.getD i []).getD j 0 =
            if ([[(0:ℚ), 1], [1/2, 2/5]].getD i []).getD j 0 < 1/2 then 1
            else ([[(3:ℚ)/10, 0], [1, 3/10]].getD i []).getD j 0) :=
  ⟨by decide, by decide, by decide,
    masked_stipple_elementwise [[(3:ℚ)/10, 0], [1, 3/10]] [[(0:ℚ), 1], [1/2, 2/5]] (1/2)
      (by decide) (by decide) (by decide)⟩

/-- C2: `create_masked_stipple` raises the shape-mismatch `ValueError`, carrying
both shapes, exactly when the shapes differ; shape-matched inputs always return
normally.  The (4,4) sample / (4,5) mask instance from the spec is included. -/
theorem masked_stipple_shape_guard :
    (∀ (s m : Field) (t : ℚ),
      (create_masked_stipple s m t = .error (.ShapeMismatch (shape s) (shape m)) ↔
        shape s ≠ shape m) ∧
      ((∃ r, create_masked_stipple s m t = .ok r) ↔ shape s = shape m)) ∧
    create_masked_stipple (List.replicate 4 (List.replicate 4 (3/10 : ℚ)))
        (List.replicate 4 (List.replicate 5 (1 : ℚ))) (1/2) =
      .error (.ShapeMismatch (4, 4) (4, 5)) := by
  constructor
  · intro s m t
    rw [create_masked_stipple_eq]
    by_cases h : shape s = shape m <;> simp [h]
  · rfl

/-- C5: `create_masked_stipple` does not mutate its `stipple_img` argument: the
only in-place write in the body targets the `.copy()`, so after a successful
call the input array holds exactly its original values. -/
theorem masked_stipple_no_mutation (s m : Field) (t : ℚ) (h : shape s = shape m) :
    ∃ res, create_masked_stipple_exec s m t = .ok (s, res) := by
  refine ⟨np_setWhere (np_copy s) (np_lt m t) 1, ?_⟩
  unfold create_masked_stipple_exec
  simp [h]

/-- C5 witness. -/
theorem masked_stipple_no_mutation_witness :
    shape [[(3:ℚ)/10, 1]] = shape [[(0:ℚ), 1]] ∧
      ∃ res, create_masked_stipple_exec [[(3:ℚ)/10, 1]] [[(0:ℚ), 1]] (1/2) =
        .ok ([[(3:ℚ)/10, 1]], res) :=
  ⟨by decide, masked_stipple_no_mutation [[(3:ℚ)/10, 1]] [[(0:ℚ), 1]] (1/2) (by decide)⟩

/-- C6: `create_masked_stipple` is deterministic — it reads nothing but its
three arguments, so two calls on identical inputs return identical arrays. -/
theorem masked_stipple_deterministic (s₁ s₂ m₁ m₂ : Field) (t₁ t₂ : ℚ)
    (hs : s₁ = s₂) (hm : m₁ = m₂) (ht : t₁ = t₂) :
    create_masked_stipple s₁ m₁ t₁ = create_masked_stipple s₂ m₂ t₂ := by
  rw [hs, hm, ht]

/-- C6 witness. -/
theorem masked_stipple_deterministic_witness :
    ([[(3:ℚ)/10]] : Field) = [[(3:ℚ)/10]] ∧
      create_masked_stipple [[(3:ℚ)/10]] [[(0:ℚ)]] (1/2) =
        create_masked_stipple [[(3:ℚ)/10]] [[(0:ℚ)]] (1/2) :=
  ⟨rfl, masked_stipple_deterministic _ _ _ _ _ _ rfl rfl rfl⟩

theorem maskRow_idem (t : ℚ) :
    ∀ (a b : List ℚ),
      List.zipWith (fun x v => if v < t then 1 else x)
        (List.zipWith (fun x v => if v < t then 1 else x) a b) b =
      List.zipWith (fun x v => if v < t then 1 else x) a b := by
  intro a
  induction a with
  | nil => intro b; simp
  | cons x xs ih =>
    intro b
    cases b with
    | nil => simp
    | cons v vs =>
      simp only [List.zipWith_cons_cons, ih]
      by_cases hv : v < t <;> simp [hv]

theorem applyMask_idem (s m : Field) (t : ℚ) :
    applyMask (applyMask s m t) m t = applyMask s m t := by
  unfold applyMask
  induction s generalizing m with
  | nil => simp
  | cons srow srest ih =>
    cases m with
    | nil => simp
    | cons mrow mrest =>
      simp only [List.zipWith_cons_cons, ih, maskRow_idem t srow mrow]

/-- C10: masking is idempotent — applying `create_masked_stipple` to its own
output with the same mask and threshold returns that output unchanged. -/
theorem masked_stipple_idempotent (s m : Field) (t : ℚ) (r : Field)
    (h : shape s = shape m) (hr : create_masked_stipple s m t = .ok r) :
    create_masked_stipple r m t = .ok r := by
  rw [create_masked_stipple_eq] at hr
  rw [if_neg (by simp [h])] at hr
  have hrv : r = applyMask s m t := by
    injection hr with h1
    exact h1.symm
  subst hrv
  rw [create_masked_stipple_eq]
  have hshape : shape (applyMask s m t) = shape m := (shape_applyMask s m t h).trans h
  rw [if_neg (by simp [hshape]), applyMask_idem]

/-- C10 witness. -/
theorem masked_stipple_idempotent_witness :
    shape [[(7:ℚ), 2]] = shape [[(0:ℚ), 2]] ∧
      create_masked_stipple [[(7:ℚ), 2]] [[(0:ℚ), 2]] 1 = .ok [[1, (2:ℚ)]] ∧
      create_masked_stipple [[1, (2:ℚ)]] [[(0:ℚ), 2]] 1 = .ok [[1, (2:ℚ)]] :=
  ⟨by decide, by decide,
    masked_stipple_idempotent [[(7:ℚ), 2]] [[(0:ℚ), 2]] 1 [[1, (2:ℚ)]]
      (by decide) (by decide)⟩

/-! ## `src/step4_create_block_letter.py`

`create_block_letter_s` builds a Pillow mode-L image (one byte per pixel),
draws a letter on it, and returns `np.array(img, dtype=np.float32) / 255.0`.
The Pillow dependency is embedded as follows:

* `Image.new('L', (width, height), color=255)` performs Pillow's size check,
  which rejects negative width/height (`ValueError: Width and height must
  be >= 0`) and accepts zero; this is the only raise reachable from the
  function, which itself validates nothing.
* Font loading (the ordered `truetype` path list, then `load_default`) depends
  on which fonts exist on the running system; it is abstracted as a `PILEnv`
  saying whether any font object was obtained (`font is not None`), the
  measured bounding box of the letter under that font, and the bytes
  `draw.text` produces when stamping the letter (at glyph-relative
  coordinates, 255 where the glyph leaves the white background untouched).
* The no-font fallback (`draw.arc`/`draw.rectangle` S-shape) is likewise a
  fixed byte raster supplied by the environment.
* Python's `//` on ints is floor division, embedded as `Int.fdiv`.
  `int(width * 0.6)` and `int(height * 0.8)` truncate toward zero; the
  operands are nonnegative there, so they equal floor division by 10, which
  agrees with the exact-rational reading of `0.6`/`0.8` for all realistic
  sizes (the float product `width * 0.6` rounds to the exact value whenever
  the exact value is representable).
* The closing diagnostic block evaluates `letter_array.min()` and
  `letter_array.max()`; numpy raises `ValueError: zero-size array to
  reduction operation minimum which has no identity` when the array has no
  elements, i.e. when `height` or `width` is zero.  (The other diagnostics —
  `np.sum` comparisons and the prints — never raise and do not touch the
  returned array.)
-/

/-- The errors reachable from `create_block_letter_s`, which validates nothing
itself: `Image.new` rejects a negative width or height (carrying the offending
size, in Pillow's `(width, height)` order), and the diagnostic
`letter_array.min()` call raises numpy's zero-size-reduction `ValueError`
when the produced array is empty. -/
inductive LetterErr where
  | badSize (w h : ℤ)
  | zeroSizeReduction
deriving DecidableEq, Repr

/-- Abstraction of the Pillow rendering environment for one call:
which glyph source (if any) the fallback chain produced, the measured text
bounding box, and the byte rasters of the drawn letter and of the hand-drawn
fallback S shape. -/
structure PILEnv where
  hasFont : Bool
  bboxW : ℤ
  bboxH : ℤ
  glyph : ℤ → ℤ → Fin 256
  sshape : ℕ → ℕ → Fin 256

/-- The `text_width`/`text_height` computation of `create_block_letter_s`:
the measured bounding box when a font was obtained (`textbbox`, or `textsize`
on older Pillow — both produce the measured size), else the fixed proportional
fallback `int(width * 0.6)`, `int(height * 0.8)`. -/
def measure_text (env : PILEnv) (height width : ℤ) : ℤ × ℤ :=
  if env.hasFont then (env.bboxW, env.bboxH)
  else ((6 * width).fdiv 10, (8 * height).fdiv 10)

/-- The byte at image position `(Y, X)` after the drawing step: with a font,
`draw.text((x, y), letter, fill=0, font=font)` stamps the glyph at the
centering offsets `x = (width - text_width) // 2`, `y = (height - text_height)
// 2`; without one, the hand-drawn fallback S raster is what was drawn. -/
def letter_pix (height width : ℤ) (env : PILEnv) : ℕ → ℕ → Fin 256 :=
  if env.hasFont then
    fun Y X =>
      env.glyph ((Y : ℤ) - (height - (measure_text env height width).2).fdiv 2)
        ((X : ℤ) - (width - (measure_text env height width).1).fdiv 2)
  else
    fun Y X => env.sshape Y X

/-- `np.array(img, dtype=np.float32) / 255.0`: the drawn image as a
height × width field of rationals. -/
def letter_field (height width : ℤ) (env : PILEnv) : Field :=
  (List.range height.toNat).map fun Y =>
    (List.range width.toNat).map fun X => ((letter_pix height width env Y X).val : ℚ) / 255

/-- `create_block_letter_s` from `src/step4_create_block_letter.py`.
The `letter` and size-ratio arguments feed only the abstracted font loading
and rasterization, i.e. the `PILEnv`.  After the drawn array is produced, the
diagnostic `letter_array.min()` runs; on an element-free array it raises
numpy's zero-size-reduction error, so the array is only returned when it has
at least one element. -/
def create_block_letter_s (height width : ℤ) (letter : String) ( font_size_ratio : ℚ)
    (env : PILEnv) : Except LetterErr Field :=
  if width < 0 ∨ height < 0 then
    .error (.badSize width height)
  else if (letter_field height width env).flatten.length = 0 then
    .error .zeroSizeReduction
  else
    .ok (letter_field height width env)

/-- An environment in which the whole font fallback chain failed
(`font is None`), with a blank fallback raster. -/
def noFontEnv : PILEnv :=
  ⟨false, 0, 0, fun _ _ => 255, fun _ _ => 255⟩

/-- An environment in which a font was obtained, the measured box is 1×1, and
the stamped letter darkens exactly the byte at glyph-relative (0,0). -/
def dotFontEnv : PILEnv :=
  ⟨true, 1, 1, fun a b => if a = 0 ∧ b = 0 then 0 else 255, fun _ _ => 255⟩

/-- The element count of the drawn array (`letter_array.size` in numpy)
is the product of the dimensions. -/
theorem letter_field_flatten_length (height width : ℤ) (env : PILEnv) :
    (letter_field height width env).flatten.length = height.toNat * width.toNat := by
  unfold letter_field
  rw [List.length_flatten, List.map_map]
  simp [Function.comp_def]

/-- C3: `create_block_letter_s` fails exactly when a dimension is
non-positive — a negative `height`/`width` is rejected by Pillow's size check
(the error carries the offending size), and a zero dimension makes the drawn
array empty, so the diagnostic `letter_array.min()` raises numpy's zero-size
reduction `ValueError`.  Either way the non-positive-dimension call raises a
`ValueError`, and the spec's two instances `(0, 10)` and `(10, -1)` both
fail. -/
theorem block_letter_nonpositive_fails :
    (∀ (height width : ℤ) (letter : String) (r : ℚ) (env : PILEnv),
      (∃ e, create_block_letter_s height width letter r env = .error e) ↔
        height ≤ 0 ∨ width ≤ 0) ∧
    create_block_letter_s 0 10 "S" (9/10) noFontEnv = .error .zeroSizeReduction ∧
    create_block_letter_s 10 (-1) "S" (9/10) noFontEnv = .error (.badSize (-1) 10) := by
  refine ⟨fun height width letter r env => ?_, rfl, rfl⟩
  unfold create_block_letter_s
  by_cases hneg : width < 0 ∨ height < 0
  · rw [if_pos hneg]
    exact iff_of_true ⟨.badSize width height, rfl⟩ (by omega)
  · rw [if_neg hneg]
    by_cases hz : (letter_field height width env).flatten.length = 0
    · rw [if_pos hz]
      rw [letter_field_flatten_length, Nat.mul_eq_zero] at hz
      exact iff_of_true ⟨.zeroSizeReduction, rfl⟩ (by omega)
    · rw [if_neg hz]
      rw [letter_field_flatten_length, Nat.mul_eq_zero] at hz
      refine iff_of_false ?_ (by omega)
      rintro ⟨e, he⟩
      exact Except.noConfusion he

theorem getD_range_map {α : Type} (n : ℕ) (g : ℕ → α) (d : α) (i : ℕ) (hi : i < n) :
    (((List.range n).map g).getD i d) = g i := by
  rw [List.getD_eq_getElem _ d (by simpa using hi)]
  simp

theorem shape_letter_field (height width : ℤ) (env : PILEnv) (hH : 0 < height) :
    shape (letter_field height width env) = (height.toNat, width.toNat) := by
  obtain ⟨n, hn⟩ : ∃ n, height.toNat = n + 1 := ⟨height.toNat - 1, by omega⟩
  simp [letter_field, shape, hn, List.range_succ_eq_map]

theorem isRect_letter_field (height width : ℤ) (env : PILEnv) :
    IsRect (letter_field height width env) := by
  intro row hrow
  obtain ⟨Y, hYmem, hY⟩ := List.mem_map.1 hrow
  subst hY
  have hne : List.range height.toNat ≠ [] := by
    intro h
    rw [h] at hYmem
    simp at hYmem
  obtain ⟨a, l, hl⟩ := List.exists_cons_of_ne_nil hne
  simp [letter_field, hl]

/-- C4: for positive dimensions `create_block_letter_s` returns a rectangular
field of exact shape `(height, width)` whose entries — bytes of a mode-L image
divided by 255 — all lie in `[0, 1]`. -/
theorem block_letter_shape_and_range (height width : ℤ) (letter : String) (r : ℚ)
    (env : PILEnv) (hH : 0 < height) (hW : 0 < width) :
    ∃ f, create_block_letter_s height width letter r env = .ok f ∧
      shape f = (height.toNat, width.toNat) ∧ IsRect f ∧
      ∀ v ∈ f.flatten, 0 ≤ v ∧ v ≤ 1 := by
  have hguard : ¬(width < 0 ∨ height < 0) := by omega
  have hsz : (letter_field height width env).flatten.length ≠ 0 := by
    rw [letter_field_flatten_length]
    intro h
    rw [Nat.mul_eq_zero] at h
    omega
  refine ⟨letter_field height width env, ?_, shape_letter_field height width env hH,
    isRect_letter_field height width env, ?_⟩
  · unfold create_block_letter_s
    rw [if_neg hguard, if_neg hsz]
  · intro v hv
    obtain ⟨row, hrow, hvrow⟩ := List.mem_flatten.1 hv
    obtain ⟨Y, _, hY⟩ := List.mem_map.1 hrow
    subst hY
    obtain ⟨X, _, hX⟩ := List.mem_map.1 hvrow
    constructor
    · rw [← hX]
      positivity
    · rw [← hX, div_le_one (by norm_num)]
      have hb : (letter_pix height width env Y X).val ≤ 255 :=
        Nat.le_of_lt_succ (Fin.isLt _)
      exact_mod_cast hb

/-- C4 witness. -/
theorem block_letter_shape_and_range_witness :
    (0 : ℤ) < 2 ∧ (0 : ℤ) < 3 ∧
      ∃ f, create_block_letter_s 2 3 "S" (9/10) noFontEnv = .ok f ∧
        shape f = ((2 : ℤ).toNat, (3 : ℤ).toNat) ∧ IsRect f ∧
        ∀ v ∈ f.flatten, 0 ≤ v ∧ v ≤ 1 :=
  ⟨by decide, by decide,
    block_letter_shape_and_range 2 3 "S" (9/10) noFontEnv (by decide) (by decide)⟩

/-- C8: the glyph is stamped at the centering offsets
`x = (width - text_width) // 2`, `y = (height - text_height) // 2` (Python
floor division on the measured bounding box): with a font, every pixel of the
returned field is the stamped glyph byte read at those offsets; and when no
glyph source is available, the measured dimensions are replaced by the fixed
proportional fallbacks `int(width * 0.6)`, `int(height * 0.8)` before the
geometric fallback shape is drawn. -/
theorem block_letter_centering (height width : ℤ) (letter : String) (r : ℚ)
    (env : PILEnv) (f : Field)
    (hf : create_block_letter_s height width letter r env = .ok f) :
    (env.hasFont = true →
      ∀ Y X, Y < height.toNat → X < width.toNat →
        (f.getD Y []).getD X 0 =
          ((env.glyph ((Y : ℤ) - (height - env.bboxH).fdiv 2)
              ((X : ℤ) - (width - env.bboxW).fdiv 2)).val : ℚ) / 255) ∧
    (env.hasFont = false →
      measure_text env height width = ((6 * width).fdiv 10, (8 * height).fdiv 10)) := by
  constructor
  · intro hfont Y X hY hX
    unfold create_block_letter_s at hf
    by_cases h : width < 0 ∨ height < 0
    · simp [h] at hf
    · rw [if_neg h] at hf
      by_cases hz : (letter_field height width env).flatten.length = 0
      · rw [if_pos hz] at hf
        exact absurd hf (by simp)
      · rw [if_neg hz] at hf
        injection hf with hf
        subst hf
        unfold letter_field
        rw [getD_range_map _ _ _ Y hY, getD_range_map _ _ _ X hX]
        unfold letter_pix measure_text
        simp [hfont]
  · intro hfont
    simp [measure_text, hfont]

/-- The field drawn by `create_block_letter_s 2 2` in `dotFontEnv`. -/
def dotField : Field :=
  match create_block_letter_s 2 2 "S" (9/10) dotFontEnv with
  | .ok f => f
  | .error _ => []

/-- C8 witness. -/
theorem block_letter_centering_witness :
    create_block_letter_s 2 2 "S" (9/10) dotFontEnv = .ok dotField ∧
      ((dotFontEnv.hasFont = true →
        ∀ Y X, Y < (2 : ℤ).toNat → X < (2 : ℤ).toNat →
          (dotField.getD Y []).getD X 0 =
            ((dotFontEnv.glyph ((Y : ℤ) - ((2 : ℤ) - dotFontEnv.bboxH).fdiv 2)
                ((X : ℤ) - ((2 : ℤ) - dotFontEnv.bboxW).fdiv 2)).val : ℚ) / 255) ∧
      (dotFontEnv.hasFont = false →
        measure_text dotFontEnv 2 2 = ((6 * 2 : ℤ).fdiv 10, (8 * 2 : ℤ).fdiv 10))) :=
  ⟨rfl, block_letter_centering 2 2 "S" (9/10) dotFontEnv dotField rfl⟩

/-! ## `src/create_meme.py`

`create_statistics_meme` validates that its four input arrays share one shape
before it builds any matplotlib figure, and only reaches `plt.savefig` (the
write of the output file) on the validated path.  The matplotlib layout is
presentation glue; the observable outcome is embedded as: either the
shape-mismatch `ValueError` (raised before anything is drawn, so no file is
written), or the figure saved at `output_path`. -/

/-- `ValueError(f"All images must have the same shape. Got shapes: {shapes}")`. -/
inductive MemeErr where
  | shapesDiffer (shapes : List (ℕ × ℕ))
deriving DecidableEq, Repr

/-- The file `plt.savefig` writes on the successful path. -/
structure SavedFigure where
  path : String
  dpi : ℕ
deriving DecidableEq, Repr

/-- `create_statistics_meme` from `src/create_meme.py`: the guard is
`len(set(shapes)) > 1` over the list of the four input shapes. -/
def create_statistics_meme
    (original_img stipple_img block_letter_img masked_stipple_img : Field)
    (output_path : String) (dpi : ℕ) : Except MemeErr SavedFigure :=
  let shapes := [shape original_img, shape stipple_img, shape block_letter_img,
    shape masked_stipple_img]
  if 1 < shapes.dedup.length then
    .error (.shapesDiffer shapes)
  else
    .ok ⟨output_path, dpi⟩

theorem one_lt_dedup_four {α : Type} [DecidableEq α] (a b c d : α) :
    1 < ([a, b, c, d].dedup).length ↔ ¬(b = a ∧ c = a ∧ d = a) := by
  rw [← List.card_toFinset]
  constructor
  · intro h hall
    obtain ⟨h1, h2, h3⟩ := hall
    subst h1; subst h2; subst h3
    simp at h
  · intro h
    rw [Finset.one_lt_card]
    by_cases h1 : b = a
    · by_cases h2 : c = a
      · have h3 : d ≠ a := fun hd => h ⟨h1, h2, hd⟩
        exact ⟨a, by simp, d, by simp, fun hd => h3 (hd.symm)⟩
      · exact ⟨a, by simp, c, by simp, fun hc => h2 (hc.symm)⟩
    · exact ⟨a, by simp, b, by simp, fun hb => h1 (hb.symm)⟩

/-- C9: when the four fields of one run do not all share the same shape,
`create_statistics_meme` raises the shape `ValueError` carrying all four
shapes; the raise happens before any figure is built, so no output file is
produced (the `SavedFigure` side of the result is not reached). -/
theorem meme_shape_guard (o s b m : Field) (path : String) (dpi : ℕ)
    (h : ¬(shape s = shape o ∧ shape b = shape o ∧ shape m = shape o)) :
    create_statistics_meme o s b m path dpi =
      .error (.shapesDiffer [shape o, shape s, shape b, shape m]) := by
  unfold create_statistics_meme
  rw [if_pos]
  exact (one_lt_dedup_four (shape o) (shape s) (shape b) (shape m)).2 h

/-- C9 witness: a (1,2)-shaped estimate among (1,1)-shaped panels. -/
theorem meme_shape_guard_witness :
    ¬(shape [[(0:ℚ)]] = shape [[(0:ℚ)]] ∧ shape [[(0:ℚ)]] = shape [[(0:ℚ)]] ∧
        shape [[(0:ℚ), 0]] = shape [[(0:ℚ)]]) ∧
      create_statistics_meme [[(0:ℚ)]] [[(0:ℚ)]] [[(0:ℚ)]] [[(0:ℚ), 0]] "out.png" 150 =
        .error (.shapesDiffer [(1, 1), (1, 1), (1, 1), (1, 2)]) :=
  ⟨by decide,
    meme_shape_guard [[(0:ℚ)]] [[(0:ℚ)]] [[(0:ℚ)]] [[(0:ℚ), 0]] "out.png" 150 (by decide)⟩

/-! ## End-to-end scenario (C7): 100×100 letter mask over an all-0.3 sample -/

/-- The uniform all-0.3 sample field of the end-to-end scenario. -/
def sample100 : Field := List.replicate 100 (List.replicate 100 ((3:ℚ)/10))

theorem zipWith_mask_replicate (c t : ℚ) :
    ∀ (mrow : List ℚ),
      List.zipWith (fun x v => if v < t then 1 else x) (List.replicate mrow.length c) mrow =
        mrow.map (fun v => if v < t then 1 else c) := by
  intro mrow
  induction mrow with
  | nil => simp
  | cons v vs ih => simp [List.replicate_succ, ih]

theorem applyMask_uniform (c t : ℚ) :
    ∀ (M : Field) (n m : ℕ), M.length = n → (∀ row ∈ M, row.length = m) →
      applyMask (List.replicate n (List.replicate m c)) M t =
        M.map (List.map (fun v => if v < t then 1 else c)) := by
  intro M
  induction M with
  | nil => intro n m hn _; subst hn; simp [applyMask]
  | cons row rest ih =>
    intro n m hn hm
    subst hn
    have hrow : row.length = m := hm row (by simp)
    unfold applyMask
    rw [List.length_cons, List.replicate_succ, List.zipWith_cons_cons, List.map_cons]
    have h1 : List.zipWith (fun x v => if v < t then 1 else x) (List.replicate m c) row =
        row.map (fun v => if v < t then 1 else c) := by
      rw [← hrow]
      exact zipWith_mask_replicate c t row
    rw [h1]
    have h2 := ih rest.length m rfl (fun r hr => hm r (by simp [hr]))
    unfold applyMask at h2
    rw [h2]

theorem letter_field_length (height width : ℤ) (env : PILEnv) :
    (letter_field height width env).length = height.toNat := by
  simp [letter_field]

theorem letter_field_row_length (height width : ℤ) (env : PILEnv) :
    ∀ row ∈ letter_field height width env, row.length = width.toNat := by
  intro row hrow
  obtain ⟨Y, _, hY⟩ := List.mem_map.1 hrow
  subst hY
  simp

theorem byte_lt_half (p : ℕ) (hp : p ≤ 127) : ((p : ℚ) / 255) < 1 / 2 := by
  rw [div_lt_div_iff₀ (by norm_num) (by norm_num)]
  have hc : (p : ℚ) ≤ 127 := by exact_mod_cast hp
  linarith

theorem byte_ge_half (p : ℕ) (hp : 128 ≤ p) : ¬(((p : ℚ) / 255) < 1 / 2) := by
  rw [not_lt, div_le_div_iff₀ (by norm_num) (by norm_num)]
  have hc : (128 : ℚ) ≤ (p : ℚ) := by exact_mod_cast hp
  linarith

theorem letter_field_entry_mem (env : PILEnv) (Y X : ℕ)
    (hY : Y < 100) (hX : X < 100) :
    ((letter_pix 100 100 env Y X).val : ℚ) / 255 ∈ (letter_field 100 100 env).flatten := by
  apply List.mem_flatten.2
  refine ⟨(List.range (100 : ℤ).toNat).map
    (fun X => ((letter_pix 100 100 env Y X).val : ℚ) / 255), ?_, ?_⟩
  · exact List.mem_map.2 ⟨Y, List.mem_range.2 (by simpa using hY), rfl⟩
  · exact List.mem_map.2 ⟨X, List.mem_range.2 (by simpa using hX), rfl⟩

/-- C7: masking the uniform all-0.3 100×100 sample with a 100×100 generated
letter mask at threshold 0.5 yields a field whose entries take exactly the two
values 0.3 (kept) and 1.0 (masked) — both present as soon as the rendered mask
has a pixel on each side of the threshold — and the number of 1.0 entries
equals the number of mask entries strictly below 0.5. -/
theorem end_to_end_two_values (env : PILEnv) (mask r : Field)
    (hmask : create_block_letter_s 100 100 "S" (9/10) env = .ok mask)
    (hr : create_masked_stipple sample100 mask (1/2) = .ok r)
    (hdark : ∃ Y X, Y < 100 ∧ X < 100 ∧ (letter_pix 100 100 env Y X).val ≤ 127)
    (hlight : ∃ Y X, Y < 100 ∧ X < 100 ∧ 128 ≤ (letter_pix 100 100 env Y X).val) :
    (∀ v ∈ r.flatten, v = 3/10 ∨ v = 1) ∧
      (∃ v ∈ r.flatten, v = 3/10) ∧ (∃ v ∈ r.flatten, v = 1) ∧
      r.flatten.countP (fun v => decide (v = 1)) =
        mask.flatten.countP (fun v => decide (v < 1/2)) := by
  have hmask' : mask = letter_field 100 100 env := by
    unfold create_block_letter_s at hmask
    rw [if_neg (show ¬((100:ℤ) < 0 ∨ (100:ℤ) < 0) by decide)] at hmask
    rw [if_neg (show ¬((letter_field 100 100 env).flatten.length = 0) by
      rw [letter_field_flatten_length]; decide)] at hmask
    exact (Except.ok.inj hmask).symm
  have hlen : mask.length = 100 := by rw [hmask', letter_field_length]; rfl
  have hrowlen : ∀ row ∈ mask, row.length = 100 := by
    rw [hmask']
    intro row hrow
    rw [letter_field_row_length 100 100 env row hrow]
    rfl
  have hshape : shape sample100 = shape mask := by
    rw [hmask', shape_letter_field 100 100 env (by decide)]
    decide
  have hrv : r = mask.map (List.map (fun v => if v < (1:ℚ)/2 then 1 else 3/10)) := by
    rw [create_masked_stipple_eq] at hr
    rw [if_neg (by simp [hshape])] at hr
    have := (Except.ok.inj hr).symm
    rw [this]
    exact applyMask_uniform (3/10) (1/2) mask 100 100 hlen hrowlen
  have hflat : r.flatten = mask.flatten.map (fun v => if v < (1:ℚ)/2 then 1 else 3/10) := by
    rw [hrv]
    exact (List.map_flatten _ mask).symm
  refine ⟨?_, ?_, ?_, ?_⟩
  · intro v hv
    rw [hflat] at hv
    obtain ⟨u, _, hu⟩ := List.mem_map.1 hv
    by_cases h : u < (1:ℚ)/2
    · right; rw [← hu, if_pos h]
    · left; rw [← hu, if_neg h]
  · obtain ⟨Y, X, hY, hX, hp⟩ := hlight
    refine ⟨3/10, ?_, rfl⟩
    rw [hflat]
    apply List.mem_map.2
    refine ⟨((letter_pix 100 100 env Y X).val : ℚ) / 255, ?_, ?_⟩
    · rw [hmask']
      exact letter_field_entry_mem env Y X hY hX
    · rw [if_neg (byte_ge_half _ hp)]
  · obtain ⟨Y, X, hY, hX, hp⟩ := hdark
    refine ⟨1, ?_, rfl⟩
    rw [hflat]
    apply List.mem_map.2
    refine ⟨((letter_pix 100 100 env Y X).val : ℚ) / 255, ?_, ?_⟩
    · rw [hmask']
      exact letter_field_entry_mem env Y X hY hX
    · rw [if_pos (byte_lt_half _ hp)]
  · rw [hflat, List.countP_map]
    apply List.countP_congr
    intro u _
    simp only [Function.comp_apply]
    by_cases h : u < (1:ℚ)/2
    · rw [if_pos h]
      simp only [decide_eq_true_eq, eq_self_iff_true]
      exact iff_of_true trivial h
    · rw [if_neg h]
      simp only [decide_eq_true_eq]
      exact iff_of_false (by norm_num) h

/-- The 100×100 mask the witness environment renders. -/
def mask100 : Field := letter_field 100 100 dotFontEnv

/-- The output of the witness masking call, as the code computes it. -/
def biased100 : Field := np_setWhere (np_copy sample100) (np_lt mask100 (1/2)) 1

/-- C7 witness: the 100×100 scenario in the dot-glyph environment, whose mask
is dark exactly at position (49, 49) (the centered 1×1 box) and light at
(0, 0). -/
theorem end_to_end_two_values_witness :
    create_block_letter_s 100 100 "S" (9/10) dotFontEnv = .ok mask100 ∧
      create_masked_stipple sample100 mask100 (1/2) = .ok biased100 ∧
      (letter_pix 100 100 dotFontEnv 49 49).val ≤ 127 ∧
      128 ≤ (letter_pix 100 100 dotFontEnv 0 0).val ∧
      ((∀ v ∈ biased100.flatten, v = 3/10 ∨ v = 1) ∧
        (∃ v ∈ biased100.flatten, v = 3/10) ∧ (∃ v ∈ biased100.flatten, v = 1) ∧
        biased100.flatten.countP (fun v => decide (v = 1)) =
          mask100.flatten.countP (fun v => decide (v < 1/2))) :=
  ⟨by
      unfold create_block_letter_s
      rw [if_neg (by decide), if_neg (by rw [letter_field_flatten_length]; decide)]
      rfl,
    rfl, by decide, by decide,
    end_to_end_two_values dotFontEnv mask100 biased100
      (by
        unfold create_block_letter_s
        rw [if_neg (by decide), if_neg (by rw [letter_field_flatten_length]; decide)]
        rfl)
      rfl
      ⟨49, 49, by decide, by decide, by decide⟩
      ⟨0, 0, by decide, by decide, by decide⟩⟩

end SelectionBias
